import Mathlib

/-!
Verification development for the dockwatch repository: a shallow embedding of
the volume-inventory provider (`internal/dockercli/client.go`), the volume
record model and size formatter (`internal/domain`), and the TUI session state
and prune planning (`internal/tui`), together with theorems settling the
specified properties.
-/

namespace Dockwatch

/-- One volume record, as in the Go struct `domain.Volume`.  `LastSeen`
(`time.Time`) is modelled as an abstract tick supplied by the caller. -/
structure Volume where
  name : String
  driver : String
  sizeBytes : Int
  attached : List String
  project : String
  orphan : Bool
  lastSeen : Nat
deriving DecidableEq

/-- Go constant `kb = 1024` shared by `SizeHuman` and `humanBytes`. -/
def kbC : Int := 1024

/-- Go constant `mb = kb * 1024`. -/
def mbC : Int := 1024 * 1024

/-- Go constant `gb = mb * 1024`. -/
def gbC : Int := 1024 * 1024 * 1024

/-- Round `n / d` to the nearest integer, ties to the even neighbour: the
decimal rounding Go's fixed-precision float formatting performs on the exact
dyadic quotients that arise here (the divisors are powers of two, so the
float64 quotient is exact for every size below 2^53). -/
def rhe (n d : Nat) : Nat :=
  let q := n / d
  let r := n % d
  if 2 * r < d then q
  else if d < 2 * r then q + 1
  else if q % 2 = 0 then q else q + 1

/-- Go `fmt.Sprintf` of `b / d` with one fractional digit (`%.1f`), for
nonnegative `b`. -/
def fmtOne (b d : Nat) : String :=
  let n := rhe (10 * b) d
  toString (n / 10) ++ "." ++ toString (n % 10)

/-- Go `fmt.Sprintf` of `b / d` with two fractional digits (`%.2f`), for
nonnegative `b`. -/
def fmtTwo (b d : Nat) : String :=
  let n := rhe (100 * b) d
  toString (n / 100) ++ "." ++
    (if n % 100 < 10 then "0" ++ toString (n % 100) else toString (n % 100))

/-- `Volume.SizeHuman` from `internal/domain`: `?` for negative sizes, then
the GB / MB / KB / B ladder with one fractional digit above the B range. -/
def sizeHuman (b : Int) : String :=
  if b < 0 then "?"
  else if gbC ≤ b then fmtOne b.toNat gbC.toNat ++ " GB"
  else if mbC ≤ b then fmtOne b.toNat mbC.toNat ++ " MB"
  else if kbC ≤ b then fmtOne b.toNat kbC.toNat ++ " KB"
  else toString b ++ " B"

/-- `humanBytes` from `internal/tui` (plan total rendering): everything
`<= 0` collapses to `0 B`, and two fractional digits are rendered. -/
def humanBytes (b : Int) : String :=
  if b ≤ 0 then "0 B"
  else if gbC ≤ b then fmtTwo b.toNat gbC.toNat ++ " GB"
  else if mbC ≤ b then fmtTwo b.toNat mbC.toNat ++ " MB"
  else if kbC ≤ b then fmtTwo b.toNat kbC.toNat ++ " KB"
  else toString b ++ " B"

/-- The unit ladder both formatters share: `0` = B, `1` = KB, `2` = MB,
`3` = GB, selected exactly by the Go switch conditions. -/
def chosenUnit (b : Int) : Nat :=
  if gbC ≤ b then 3 else if mbC ≤ b then 2 else if kbC ≤ b then 1 else 0

/-- Spec-side statement that `u` is the largest unit among B, KB, MB, GB
(1024-based) whose magnitude at `b` is at least one. -/
def isLargestUnit (b : Int) (u : Nat) : Prop :=
  (1024 : Int) ^ u ≤ b ∧ ∀ w : Nat, w ≤ 3 → (1024 : Int) ^ w ≤ b → w ≤ u

/-- Unit label the formatter appends. -/
def unitLabel (u : Nat) : String :=
  if u = 3 then " GB" else if u = 2 then " MB" else if u = 1 then " KB" else " B"

/-- Spec-side rendering schema: an integer count for the B unit, one
fractional digit for KB, MB and GB. -/
def renderUnit (b : Int) (u : Nat) : String :=
  if u = 0 then toString b ++ " B"
  else fmtOne b.toNat ((1024 : Int) ^ u).toNat ++ unitLabel u

lemma kbC_toNat : kbC.toNat = 1024 := rfl

lemma mbC_toNat : mbC.toNat = 1048576 := rfl

lemma gbC_toNat : gbC.toNat = 1073741824 := rfl

lemma pow1024_one : ((1024 : Int) ^ (1 : Nat)) = kbC := by norm_num [kbC]

lemma pow1024_two : ((1024 : Int) ^ (2 : Nat)) = mbC := by norm_num [mbC]

lemma pow1024_three : ((1024 : Int) ^ (3 : Nat)) = gbC := by norm_num [gbC]

/-- `SizeHuman` renders every positive size through the chosen unit of the
ladder, in the shared rendering schema. -/
lemma sizeHuman_renders (b : Int) (hb : 0 < b) :
    sizeHuman b = renderUnit b (chosenUnit b) := by
  have hneg : ¬ b < 0 := by omega
  by_cases hg : gbC ≤ b
  · simp [sizeHuman, renderUnit, chosenUnit, unitLabel, hneg, hg, pow1024_three,
      kbC_toNat, mbC_toNat, gbC_toNat]
  · by_cases hm : mbC ≤ b
    · simp [sizeHuman, renderUnit, chosenUnit, unitLabel, hneg, hg, hm, pow1024_two,
        kbC_toNat, mbC_toNat, gbC_toNat]
    · by_cases hk : kbC ≤ b
      · simp [sizeHuman, renderUnit, chosenUnit, unitLabel, hneg, hg, hm, hk, pow1024_one,
          kbC_toNat, mbC_toNat, gbC_toNat]
      · simp [sizeHuman, renderUnit, chosenUnit, unitLabel, hneg, hg, hm, hk]

/-- The ladder picks the largest unit whose magnitude is at least one. -/
lemma chosenUnit_isLargest (b : Int) (hb : 0 < b) :
    isLargestUnit b (chosenUnit b) := by
  constructor
  · unfold chosenUnit
    split_ifs with h1 h2 h3
    · rw [pow1024_three]; exact h1
    · rw [pow1024_two]; exact h2
    · rw [pow1024_one]; exact h3
    · simpa using hb
  · intro w hw hpow
    have hcases : w = 0 ∨ w = 1 ∨ w = 2 ∨ w = 3 := by omega
    unfold chosenUnit
    rcases hcases with h | h | h | h <;> subst h
    · omega
    · rw [pow1024_one] at hpow
      split_ifs <;> omega
    · rw [pow1024_two] at hpow
      have : kbC ≤ b := by simp only [kbC, mbC] at hpow ⊢; omega
      split_ifs <;> omega
    · rw [pow1024_three] at hpow
      have h1 : mbC ≤ b := by simp only [mbC, gbC] at hpow ⊢; omega
      split_ifs
      omega

/-- Unit choice is monotone in the byte count. -/
lemma chosenUnit_le (a b : Int) (hab : a ≤ b) : chosenUnit a ≤ chosenUnit b := by
  simp only [chosenUnit, kbC, mbC, gbC]
  split_ifs <;> omega

/-- C4 (amended): `Volume.SizeHuman` maps `-1` to `?`, `0` to `0 B`, `1536`
to `1.5 KB` and `1073741824` to `1.0 GB`, and for every positive input renders
through the largest 1024-based unit among B, KB, MB, GB whose magnitude is at
least one, with one fractional digit for KB/MB/GB and an integer for B; the
plan-total formatter `humanBytes`, however, maps every input `<= 0` (including
the unknown sentinel `-1`) to `0 B` and renders two fractional digits. -/
theorem sizeHuman_format_spec :
    sizeHuman (-1) = "?" ∧ sizeHuman 0 = "0 B" ∧ sizeHuman 1536 = "1.5 KB" ∧
    sizeHuman 1073741824 = "1.0 GB" ∧
    (∀ b : Int, 0 < b → sizeHuman b = renderUnit b (chosenUnit b)) ∧
    (∀ b : Int, 0 < b → isLargestUnit b (chosenUnit b)) ∧
    humanBytes (-1) = "0 B" ∧ humanBytes 1536 = "1.50 KB" :=
  ⟨rfl, rfl, rfl, rfl, fun b hb => sizeHuman_renders b hb,
   fun b hb => chosenUnit_isLargest b hb, rfl, rfl⟩

/-- C4 counterexample: the claim also covers `humanBytes` (cited as one of the
two realizations of the size formatter), but `humanBytes` renders `1536` as
`1.50 KB`, not `1.5 KB`, and renders the unknown sentinel `-1` as `0 B`,
not `?`. -/
theorem humanBytes_format_cex :
    humanBytes 1536 = "1.50 KB" ∧ ("1.50 KB" : String) ≠ "1.5 KB" ∧
    humanBytes (-1) = "0 B" ∧ ("0 B" : String) ≠ "?" :=
  ⟨rfl, by decide, rfl, by decide⟩

/-- C4 witness: the general clauses of `sizeHuman_format_spec` instantiated at
the concrete size 3000. -/
theorem sizeHuman_format_spec_w :
    sizeHuman 3000 = renderUnit 3000 (chosenUnit 3000) ∧
    (1024 : Int) ^ chosenUnit 3000 ≤ 3000 :=
  ⟨sizeHuman_format_spec.2.2.2.2.1 3000 (by decide),
   (sizeHuman_format_spec.2.2.2.2.2.1 3000 (by decide)).1⟩

/-- C5 (confirmed): `chosenUnit` is the unit `SizeHuman` renders every
positive byte count through, and the unit chosen for a strictly larger
nonnegative byte count is never smaller. -/
theorem formatter_unit_monotone :
    (∀ b : Int, 0 < b → sizeHuman b = renderUnit b (chosenUnit b)) ∧
    ∀ a b : Int, 0 ≤ a → a < b → chosenUnit a ≤ chosenUnit b :=
  ⟨fun b hb => sizeHuman_renders b hb, fun a b _ hab => chosenUnit_le a b hab.le⟩

/-- C5 witness: unit monotonicity and the rendering clause at concrete
inputs. -/
theorem formatter_unit_monotone_w :
    sizeHuman 2048 = renderUnit 2048 (chosenUnit 2048) ∧
    chosenUnit 512 ≤ chosenUnit 4096 :=
  ⟨formatter_unit_monotone.1 2048 (by decide),
   formatter_unit_monotone.2 512 4096 (by decide) (by decide)⟩

/-- Go `paneTable = iota` (0). -/
def paneTable : Nat := 0

/-- Go `paneDetails` (1). -/
def paneDetails : Nat := 1

/-- Go `panePlan` (2). -/
def panePlan : Nat := 2

/-- The core session state held by the Go `model` struct: active pane, the
current snapshot, the marked set (`map[int]bool`, absent keys read as
`false`, modelled as a total boolean function on indices), the `showDetails`
flag, and the table cursor (owned by the external bubbles table component). -/
structure TuiModel where
  active : Nat
  vols : List Volume
  marked : Nat → Bool
  showDetails : Bool
  cursor : Nat

/-- The space-key branch of `model.Update`: Go
`m.marked[idx] = !m.marked[idx]` at `idx = m.table.Cursor()`. -/
def toggleMark (i : Nat) (marked : Nat → Bool) : Nat → Bool :=
  fun j => if j = i then !(marked i) else marked j

/-- `model.Update` restricted to the key messages it switches on.  The
bubbles table component is external presentation; its only contribution to
the core state is cursor movement, abstracted as `cursorStep` (applied after
the switch, exactly as `m.table.Update(msg)` runs after it).  The `q`/`esc`
branch returns before the table update (it only emits the quit command). -/
def update (cursorStep : String → Nat → Nat) (key : String) (m : TuiModel) :
    TuiModel :=
  if key == "q" || key == "esc" then m
  else
    let m2 :=
      if key == "tab" then { m with active := (m.active + 1) % 3 }
      else if key == "enter" then { m with showDetails := !m.showDetails }
      else if key == "p" then { m with active := panePlan }
      else if key == " " then { m with marked := toggleMark m.cursor m.marked }
      else m
    { m2 with cursor := cursorStep key m2.cursor }

/-- The three possible lower panes of `model.View`. -/
inductive LowerPane where
  | detailsPane : LowerPane
  | planPane : LowerPane
  | helpPane : LowerPane
deriving DecidableEq

/-- Which lower pane `model.View` renders: its switch reads `m.active` only
(in particular it never reads `showDetails`). -/
def lowerPaneOf (m : TuiModel) : LowerPane :=
  if m.active = paneDetails then .detailsPane
  else if m.active = panePlan then .planPane
  else .helpPane

/-- C7 (code bug): the `enter` key — the ToggleDetails event — only flips the
write-only `showDetails` flag; the active pane, and therefore the pane
`model.View` renders, are unchanged, for every state and every cursor
behaviour.  The claim (and the repository README, "Enter: Toggle details")
say it switches Table to Details and back. -/
theorem toggleDetails_dead_flag :
    ∀ (cursorStep : String → Nat → Nat) (m : TuiModel),
      (update cursorStep "enter" m).active = m.active ∧
      (update cursorStep "enter" m).showDetails = !m.showDetails ∧
      lowerPaneOf (update cursorStep "enter" m) = lowerPaneOf m :=
  fun _ _ => ⟨rfl, rfl, rfl⟩

/-- C8 (confirmed): the space key applies `toggleMark` at the cursor, and
toggling the same index twice returns the marked-set membership of every
index — in particular the toggled one — to its original value. -/
theorem toggleMark_twice_id :
    (∀ (cursorStep : String → Nat → Nat) (m : TuiModel),
      (update cursorStep " " m).marked = toggleMark m.cursor m.marked) ∧
    ∀ (marked : Nat → Bool) (i j : Nat),
      toggleMark i (toggleMark i marked) j = marked j := by
  refine ⟨fun _ _ => rfl, fun marked i j => ?_⟩
  by_cases h : j = i <;> simp [toggleMark, h]

/-- C9 (confirmed): the `tab` key advances the active pane by `+1 mod 3`
(Table to Details to Plan to Table), regardless of cursor movement, marks and
the rest of the state, so three applications return any of the three panes to
itself. -/
theorem cyclePane_order :
    ∀ (cursorStep : String → Nat → Nat) (m : TuiModel),
      (update cursorStep "tab" m).active = (m.active + 1) % 3 ∧
      (m.active < 3 →
        (update cursorStep "tab"
          (update cursorStep "tab" (update cursorStep "tab" m))).active =
          m.active) := by
  intro cs m
  refine ⟨rfl, fun h => ?_⟩
  show (((m.active + 1) % 3 + 1) % 3 + 1) % 3 = m.active
  omega

/-- Identity cursor behaviour, for concrete instantiations. -/
def cursorId : String → Nat → Nat := fun _ c => c

/-- A concrete startup state: Table pane, empty snapshot, nothing marked. -/
def tuiM0 : TuiModel :=
  { active := paneTable, vols := [], marked := fun _ => false,
    showDetails := false, cursor := 0 }

/-- C9 witness: three `tab` presses from the concrete Table-pane state return
to the Table pane. -/
theorem cyclePane_order_w :
    (update cursorId "tab"
      (update cursorId "tab" (update cursorId "tab" tuiM0))).active =
      tuiM0.active :=
  (cyclePane_order cursorId tuiM0).2 (by decide)

/-- The line `renderPlan` appends for each marked volume:
Go `fmt.Sprintf("  ✓ %s (%s)", v.Name, v.SizeHuman())`. -/
def planLine (v : Volume) : String :=
  "  ✓ " ++ v.name ++ " (" ++ sizeHuman v.sizeBytes ++ ")"

/-- The loop of `renderPlan` in `internal/tui`: walks the snapshot with its
index, collects a line for every marked volume, and adds `SizeBytes` to the
running total only when it is strictly positive. -/
def renderPlanLoop (marked : Nat → Bool) :
    List Volume → Nat → Int → List String × Int
  | [], _, total => ([], total)
  | v :: vs, i, total =>
    if marked i then
      let total2 := if 0 < v.sizeBytes then total + v.sizeBytes else total
      let rest := renderPlanLoop marked vs (i + 1) total2
      (planLine v :: rest.1, rest.2)
    else
      renderPlanLoop marked vs (i + 1) total

/-- `renderPlan`'s computed plan: the listed lines and the byte total
(the presentation wrapping — border, `<none selected>` placeholder,
`humanBytes` of the total — is not part of the computation). -/
def renderPlanCore (vols : List Volume) (marked : Nat → Bool) :
    List String × Int :=
  renderPlanLoop marked vols 0 0

/-- Spec-side: the volumes at marked indices, in ascending index order,
starting the index count at `i`. -/
def selectedFrom (marked : Nat → Bool) : List Volume → Nat → List Volume
  | [], _ => []
  | v :: vs, i =>
    if marked i then v :: selectedFrom marked vs (i + 1)
    else selectedFrom marked vs (i + 1)

/-- Spec-side: the volumes of the snapshot at marked indices, ascending. -/
def selectedSpec (vols : List Volume) (marked : Nat → Bool) : List Volume :=
  selectedFrom marked vols 0

/-- Spec-side: sum of `SizeBytes` over the volumes whose size is known
(`>= 0`); unknown-size volumes contribute zero. -/
def sumKnown : List Volume → Int
  | [] => 0
  | v :: vs => (if 0 ≤ v.sizeBytes then v.sizeBytes else 0) + sumKnown vs

lemma renderPlanLoop_eq (marked : Nat → Bool) :
    ∀ (vs : List Volume) (i : Nat) (t : Int),
      renderPlanLoop marked vs i t =
        ((selectedFrom marked vs i).map planLine,
          t + sumKnown (selectedFrom marked vs i)) := by
  intro vs
  induction vs with
  | nil => intro i t; simp [renderPlanLoop, selectedFrom, sumKnown]
  | cons v rest ih =>
    intro i t
    by_cases h : marked i
    · simp only [renderPlanLoop, selectedFrom, h, if_true, ih, List.map_cons,
        sumKnown, Prod.mk.injEq]
      refine ⟨trivial, ?_⟩
      by_cases hs : 0 < v.sizeBytes
      · have : (0 : Int) ≤ v.sizeBytes := hs.le
        simp only [hs, if_true, this]
        omega
      · have h0 : (if 0 < v.sizeBytes then t + v.sizeBytes else t) = t := by
          simp [hs]
        rw [h0]
        by_cases hz : (0 : Int) ≤ v.sizeBytes
        · have : v.sizeBytes = 0 := by omega
          simp [hz, this]
        · simp [hz]
    · simp [renderPlanLoop, selectedFrom, h, ih]

lemma selectedFrom_enumFrom (marked : Nat → Bool) :
    ∀ (vs : List Volume) (i : Nat),
      selectedFrom marked vs i =
        ((vs.enumFrom i).filter (fun p => marked p.1)).map Prod.snd := by
  intro vs
  induction vs with
  | nil => intro i; simp [selectedFrom]
  | cons v rest ih =>
    intro i
    by_cases h : marked i <;>
      simp [selectedFrom, List.enumFrom, List.filter, h, ih]

/-- C3 (confirmed): for every snapshot and marked set, the computed plan
lists exactly the volumes at marked indices in ascending index order (each
rendered by `planLine`, unknown-size volumes included), and the total is the
sum of `SizeBytes` over the marked volumes whose size is known (`>= 0` —
the loop's strict `> 0` guard agrees, since a zero size adds zero). -/
theorem renderPlan_selected_total :
    ∀ (vols : List Volume) (marked : Nat → Bool),
      renderPlanCore vols marked =
        ((selectedSpec vols marked).map planLine,
          sumKnown (selectedSpec vols marked)) ∧
      selectedSpec vols marked =
        ((vols.enum.filter (fun p => marked p.1)).map Prod.snd) := by
  intro vols marked
  constructor
  · have h := renderPlanLoop_eq marked vols 0 0
    simpa [renderPlanCore, selectedSpec] using h
  · simpa [selectedSpec, List.enum] using selectedFrom_enumFrom marked vols 0

/-- Character-level scan deciding whether the second list begins the first
(the primitive under Go's `strings.Contains`). -/
def strStarts : List Char → List Char → Bool
  | _, [] => true
  | [], _ :: _ => false
  | a :: s, b :: p => a == b && strStarts s p

/-- Substring test on character lists: some tail of `s` starts with `p`. -/
def strHasSub : List Char → List Char → Bool
  | [], p => p.isEmpty
  | a :: s, p => strStarts (a :: s) p || strHasSub s p

/-- Go `strings.Contains s pat`. -/
def containsS (s pat : String) : Bool :=
  strHasSub s.data pat.data

/-- How `docker ps` renders a container's mount set into the single `Mounts`
column the code receives: the mount names joined with commas. -/
def joinCommaS : List String → String
  | [] => ""
  | [m] => m
  | m :: n :: rest => m ++ "," ++ joinCommaS (n :: rest)

/-- Go `strings.TrimPrefix(name, "/")`: one leading slash removed, if
present. -/
def trimSlash (s : String) : String :=
  match s.data with
  | [] => s
  | c :: rest => if c = '/' then { data := rest } else s

/-- One parsed line of `docker ps -a --format json`: the `Names` field and
the container's mount set (whose comma-join is the `Mounts` string field the
code inspects).  A `none` line is empty or malformed JSON and is skipped
(Go `continue`). -/
structure ContainerInfo where
  names : String
  mounts : List String
deriving DecidableEq

/-- Loop body of `getContainersUsingVolume`: a container is collected when
its `Mounts` string contains the volume name as a substring
(Go `strings.Contains(containerInfo.Mounts, volumeName)`), reported with one
leading slash trimmed. -/
def psLine (volumeName : String) : Option ContainerInfo → Option String
  | none => none
  | some c =>
    if containsS (joinCommaS c.mounts) volumeName then some (trimSlash c.names)
    else none

/-- `getContainersUsingVolume` over an already-obtained container listing. -/
def getContainersUsingVolume (lines : List (Option ContainerInfo))
    (volumeName : String) : List String :=
  lines.filterMap (psLine volumeName)

/-- `getContainersUsingVolume` including the failure of `docker ps` itself
(`psOut` is the outcome of running and splitting the command output). -/
def getContainersUsingVolumeE
    (psOut : Except String (List (Option ContainerInfo)))
    (volumeName : String) : Except String (List String) :=
  match psOut with
  | .error e => .error ("failed to list containers: " ++ e)
  | .ok lines => .ok (getContainersUsingVolume lines volumeName)

/-- One element of the parsed `docker volume inspect` array: name, driver
and the label map (Go `map[string]string`, possibly `nil`). -/
structure InspectInfo where
  name : String
  driver : String
  labels : Option (List (String × String))
deriving DecidableEq

/-- Go map read `labels[key]`: the empty string when the key is absent. -/
def lookupLabel (labels : List (String × String)) (key : String) : String :=
  match labels.lookup key with
  | some v => v
  | none => ""

/-- `getVolumeDetails` from `internal/dockercli`.  `inspectOut` is the
combined outcome of running `docker volume inspect` and unmarshalling it
(either step failing yields the error path); `psOut` feeds the inner
`getContainersUsingVolume` call, whose failure degrades to no attachments;
`now` stands for `time.Now()`. -/
def getVolumeDetails (name : String)
    (inspectOut : Except String (List InspectInfo))
    (psOut : Except String (List (Option ContainerInfo)))
    (now : Nat) : Except String Volume :=
  match inspectOut with
  | .error e => .error ("failed to inspect volume " ++ name ++ ": " ++ e)
  | .ok [] => .error ("volume " ++ name ++ " not found")
  | .ok (volInfo :: _) =>
    let attached :=
      match getContainersUsingVolumeE psOut name with
      | .ok a => a
      | .error _ => []
    let project :=
      match volInfo.labels with
      | some labels => lookupLabel labels ("com.docker.compose.project")
      | none => ""
    let sizeBytes : Int := -1
    .ok { name := volInfo.name, driver := volInfo.driver,
          sizeBytes := sizeBytes, attached := attached, project := project,
          orphan := attached.length == 0, lastSeen := now }

/-- One parsed line of `docker volume ls --format json`. -/
structure LsEntry where
  name : String
  driver : String
deriving DecidableEq

/-- One line of the `ListVolumes` loop: the parsed entry (`none` when the
line is empty or malformed and is skipped) together with the outcomes of the
per-volume commands issued for it. -/
structure LsLine where
  entry : Option LsEntry
  inspectOut : Except String (List InspectInfo)
  psOut : Except String (List (Option ContainerInfo))

/-- The degraded record `ListVolumes` builds when the per-volume detail
lookup fails: basic info only, unknown size, no attachments, orphan. -/
def degraded (e : LsEntry) (now : Nat) : Volume :=
  { name := e.name, driver := e.driver, sizeBytes := -1, attached := [],
    project := "", orphan := true, lastSeen := now }

/-- Per-line body of the `ListVolumes` loop. -/
def listLine (now : Nat) (l : LsLine) : Option Volume :=
  match l.entry with
  | none => none
  | some e =>
    match getVolumeDetails e.name l.inspectOut l.psOut now with
    | .ok v => some v
    | .error _ => some (degraded e now)

/-- `ListVolumes` from `internal/dockercli`: fails only when
`docker volume ls` itself fails; otherwise every parsed line yields a
volume record, degraded when its detail lookup fails. -/
def listVolumes (lsOut : Except String (List LsLine)) (now : Nat) :
    Except String (List Volume) :=
  match lsOut with
  | .error e => .error ("failed to list volumes: " ++ e)
  | .ok lines => .ok (lines.filterMap (listLine now))

lemma getVolumeDetails_fields (name : String)
    (insp : Except String (List InspectInfo))
    (ps : Except String (List (Option ContainerInfo))) (now : Nat)
    (v : Volume) (h : getVolumeDetails name insp ps now = Except.ok v) :
    v.orphan = (v.attached.length == 0) ∧ v.sizeBytes = -1 := by
  cases insp with
  | error e => simp [getVolumeDetails] at h
  | ok l =>
    cases l with
    | nil => simp [getVolumeDetails] at h
    | cons volInfo rest =>
      simp only [getVolumeDetails, Except.ok.injEq] at h
      subst h
      exact ⟨rfl, rfl⟩

lemma listLine_inv (now : Nat) (l : LsLine) (v : Volume)
    (h : listLine now l = some v) :
    (∃ e, l.entry = some e ∧
        getVolumeDetails e.name l.inspectOut l.psOut now = Except.ok v) ∨
    ∃ e, l.entry = some e ∧ v = degraded e now := by
  unfold listLine at h
  split at h
  · simp at h
  · rename_i e heq
    split at h
    · rename_i w hd
      simp only [Option.some.injEq] at h
      exact Or.inl ⟨e, heq, h ▸ hd⟩
    · rename_i msg hd
      simp only [Option.some.injEq] at h
      exact Or.inr ⟨e, heq, h.symm⟩

/-- C1 (confirmed): every volume produced by `getVolumeDetails`, and every
volume of a successful `ListVolumes` result (including the degraded branch),
has `Orphan` equal to `len(Attached) == 0` at construction. -/
theorem orphan_derived :
    (∀ (name : String) (insp : Except String (List InspectInfo))
        (ps : Except String (List (Option ContainerInfo))) (now : Nat)
        (v : Volume),
      getVolumeDetails name insp ps now = Except.ok v →
      v.orphan = (v.attached.length == 0)) ∧
    ∀ (lsLines : List LsLine) (now : Nat) (vs : List Volume) (v : Volume),
      listVolumes (Except.ok lsLines) now = Except.ok vs → v ∈ vs →
      v.orphan = (v.attached.length == 0) := by
  constructor
  · intro name insp ps now v h
    exact (getVolumeDetails_fields name insp ps now v h).1
  · intro lsLines now vs v hvs hv
    simp only [listVolumes, Except.ok.injEq] at hvs
    subst hvs
    rcases List.mem_filterMap.mp hv with ⟨l, _, hl⟩
    rcases listLine_inv now l v hl with ⟨e, _, hd⟩ | ⟨e, _, rfl⟩
    · exact (getVolumeDetails_fields e.name l.inspectOut l.psOut now v hd).1
    · rfl

/-- A concrete `docker volume inspect` entry. -/
def inspV1 : InspectInfo := { name := "v1", driver := "local", labels := none }

/-- The volume `getVolumeDetails` builds from `inspV1` with no containers. -/
def vol1 : Volume :=
  { name := "v1", driver := "local", sizeBytes := -1, attached := [],
    project := "", orphan := true, lastSeen := 0 }

/-- C1 witness: the orphan invariant at a concrete successful lookup. -/
theorem orphan_derived_w : vol1.orphan = (vol1.attached.length == 0) :=
  orphan_derived.1 "v1" (Except.ok [inspV1]) (Except.ok []) 0 vol1 rfl

/-- C2 (confirmed): when the detail lookup for a listed volume fails,
`ListVolumes` still succeeds and still contains a record for that name, with
`SizeBytes = -1`, `Attached = []` and `Orphan = true`. -/
theorem listVolumes_degrade_not_drop :
    ∀ (lsLines : List LsLine) (now : Nat) (l : LsLine) (e : LsEntry)
      (msg : String),
      l ∈ lsLines → l.entry = some e →
      getVolumeDetails e.name l.inspectOut l.psOut now = Except.error msg →
      ∃ vs, listVolumes (Except.ok lsLines) now = Except.ok vs ∧
        ∃ v, v ∈ vs ∧ v.name = e.name ∧ v.sizeBytes = -1 ∧
          v.attached = [] ∧ v.orphan = true := by
  intro lsLines now l e msg hmem hentry herr
  refine ⟨lsLines.filterMap (listLine now), rfl,
    degraded e now, ?_, rfl, rfl, rfl, rfl⟩
  refine List.mem_filterMap.mpr ⟨l, hmem, ?_⟩
  simp [listLine, hentry, herr]

/-- A listed volume whose inspect command fails. -/
def lsLineBad : LsLine :=
  { entry := some { name := "v2", driver := "local" },
    inspectOut := Except.error "boom", psOut := Except.ok [] }

/-- C2 witness: the degraded record for a concrete failing lookup. -/
theorem listVolumes_degrade_not_drop_w :
    ∃ vs, listVolumes (Except.ok [lsLineBad]) 0 = Except.ok vs ∧
      ∃ v, v ∈ vs ∧ v.name = "v2" ∧ v.sizeBytes = -1 ∧
        v.attached = [] ∧ v.orphan = true :=
  listVolumes_degrade_not_drop [lsLineBad] 0 lsLineBad
    { name := "v2", driver := "local" }
    ("failed to inspect volume " ++ "v2" ++ ": " ++ "boom")
    (List.mem_singleton.mpr rfl) rfl rfl

/-- C10 (confirmed): the Docker CLI adapter never measures size — every
volume it produces, through `getVolumeDetails` or any branch of a successful
`ListVolumes`, carries the unknown-size sentinel `-1`. -/
theorem adapter_size_unknown :
    (∀ (name : String) (insp : Except String (List InspectInfo))
        (ps : Except String (List (Option ContainerInfo))) (now : Nat)
        (v : Volume),
      getVolumeDetails name insp ps now = Except.ok v → v.sizeBytes = -1) ∧
    ∀ (lsLines : List LsLine) (now : Nat) (vs : List Volume) (v : Volume),
      listVolumes (Except.ok lsLines) now = Except.ok vs → v ∈ vs →
      v.sizeBytes = -1 := by
  constructor
  · intro name insp ps now v h
    exact (getVolumeDetails_fields name insp ps now v h).2
  · intro lsLines now vs v hvs hv
    simp only [listVolumes, Except.ok.injEq] at hvs
    subst hvs
    rcases List.mem_filterMap.mp hv with ⟨l, _, hl⟩
    rcases listLine_inv now l v hl with ⟨e, _, hd⟩ | ⟨e, _, rfl⟩
    · exact (getVolumeDetails_fields e.name l.inspectOut l.psOut now v hd).2
    · rfl

/-- C10 witness: the sentinel at a concrete successful lookup. -/
theorem adapter_size_unknown_w : vol1.sizeBytes = -1 :=
  adapter_size_unknown.1 "v1" (Except.ok [inspV1]) (Except.ok []) 0 vol1 rfl

lemma strStarts_append (p s : List Char) : strStarts (p ++ s) p = true := by
  induction p with
  | nil => cases s <;> rfl
  | cons a q ih => simp [strStarts, ih]

lemma strStarts_self (p : List Char) : strStarts p p = true := by
  simpa using strStarts_append p []

lemma strHasSub_of_starts (s p : List Char) (h : strStarts s p = true) :
    strHasSub s p = true := by
  cases s with
  | nil =>
    cases p with
    | nil => rfl
    | cons b q => simp [strStarts] at h
  | cons a s => simp [strHasSub, h]

lemma strHasSub_cons (a : Char) (s p : List Char)
    (h : strHasSub s p = true) : strHasSub (a :: s) p = true := by
  simp [strHasSub, h]

lemma strHasSub_append_left (pre s p : List Char)
    (h : strHasSub s p = true) : strHasSub (pre ++ s) p = true := by
  induction pre with
  | nil => simpa using h
  | cons a q ih => simpa [List.cons_append] using strHasSub_cons a (q ++ s) p ih

lemma strDataAppend (a b : String) : (a ++ b).data = a.data ++ b.data := rfl

lemma commaData : ("," : String).data = [','] := rfl

lemma joinCommaS_cons_data (m n : String) (rest : List String) :
    (joinCommaS (m :: n :: rest)).data =
      (m.data ++ [',']) ++ (joinCommaS (n :: rest)).data := by
  show (m ++ "," ++ joinCommaS (n :: rest)).data = _
  rw [strDataAppend, strDataAppend, commaData]

/-- A volume name that is one of the container's mounts is always found by
the substring check on the joined `Mounts` string. -/
lemma containsS_of_mem (ms : List String) (vol : String) (h : vol ∈ ms) :
    containsS (joinCommaS ms) vol = true := by
  induction ms with
  | nil => cases h
  | cons m rest ih =>
    cases rest with
    | nil =>
      have hv : vol = m := by simpa using h
      subst hv
      exact strHasSub_of_starts _ _ (strStarts_self vol.data)
    | cons n rest2 =>
      rcases List.mem_cons.mp h with h1 | h2
      · subst h1
        unfold containsS
        rw [joinCommaS_cons_data, List.append_assoc]
        exact strHasSub_of_starts _ _ (strStarts_append vol.data _)
      · unfold containsS at ih ⊢
        rw [joinCommaS_cons_data]
        exact strHasSub_append_left _ _ _ (ih h2)

/-- C6 (amended): every container whose mount set contains the volume name is
listed (its `Names` field with one leading slash trimmed, in discovery
order), but — conversely — a listed container is only guaranteed to have the
volume name as a *substring* of its comma-joined `Mounts` string: the
resolver matches substrings, not mount-set membership, and it does not
deduplicate. -/
theorem attachment_resolution_amended :
    ∀ (lines : List (Option ContainerInfo)) (vol : String),
      (∀ c : ContainerInfo, some c ∈ lines → vol ∈ c.mounts →
          trimSlash c.names ∈ getContainersUsingVolume lines vol) ∧
      ∀ nm : String, nm ∈ getContainersUsingVolume lines vol →
        ∃ c : ContainerInfo, some c ∈ lines ∧
          containsS (joinCommaS c.mounts) vol = true ∧
          nm = trimSlash c.names := by
  intro lines vol
  constructor
  · intro c hc hm
    refine List.mem_filterMap.mpr ⟨some c, hc, ?_⟩
    simp [psLine, containsS_of_mem c.mounts vol hm]
  · intro nm hnm
    rcases List.mem_filterMap.mp hnm with ⟨l, hl, hsome⟩
    cases l with
    | none => simp [psLine] at hsome
    | some c =>
      cases hb : containsS (joinCommaS c.mounts) vol with
      | false => simp [psLine, hb] at hsome
      | true =>
        refine ⟨c, hl, hb, ?_⟩
        simp only [psLine, hb, if_true] at hsome
        simp only [Option.some.injEq] at hsome
        exact hsome.symm

/-- C6 counterexample: a container whose only mount is `mydata2` is listed
for the volume `data` — the claim's membership criterion rejects it, but the
substring check accepts it. -/
theorem attachment_resolution_cex :
    getContainersUsingVolume
        [some { names := "/c1", mounts := ["mydata2"] }] ("data") = ["c1"] ∧
    ("data" : String) ∉
      ({ names := "/c1", mounts := ["mydata2"] } : ContainerInfo).mounts := by
  constructor
  · rfl
  · decide

/-- C6 witness: a container genuinely mounting the volume is listed, trimmed
of its leading slash. -/
theorem attachment_resolution_amended_w :
    trimSlash ("/web") ∈
      getContainersUsingVolume
        [some { names := "/web", mounts := ["data"] }] ("data") :=
  (attachment_resolution_amended
      [some { names := "/web", mounts := ["data"] }] ("data")).1
    { names := "/web", mounts := ["data"] }
    (List.mem_singleton.mpr rfl) (List.mem_singleton.mpr rfl)

end Dockwatch
